import Mathlib

/-!
Shallow embedding of the SopVideoExchange pipeline (TypeScript sources under
`src/`), covering the task status machine, task retry, the upload validator,
the retrying-upstream contract, the FFmpeg speed aligner and temp-directory
lifecycle, the task worker orchestration, and (modelled from the spec, since
the Python assembly engine is not among the repository's files) the audio
timeline assembler.
-/

namespace SopVideo

/-! ## Status value object (src/src/domain/value-objects/Status.ts) -/

/-- The four task statuses of `enum TaskStatus`.  In the source each carries a
display string; here the mapping to that string is `statusString`. -/
inductive TaskStatus
  | pending
  | running
  | success
  | failed
  deriving DecidableEq, BEq, Repr

/-- `Status.toString` / the display string each `TaskStatus` enum member
carries: 待处理, 处理中, 完成, 失败. -/
def statusString : TaskStatus → String
  | .pending => "待处理"
  | .running => "处理中"
  | .success => "完成"
  | .failed => "失败"

/-- `Status.fromString`: find the value among the enum's display strings
(`Object.values(TaskStatus).find(s => s === value)`), throwing — here `none` —
when the string matches none of the four. -/
def fromString (value : String) : Option TaskStatus :=
  if value = "待处理" then some .pending
  else if value = "处理中" then some .running
  else if value = "完成" then some .success
  else if value = "失败" then some .failed
  else none

/-- `StatusTransition.transitions`: the allowed targets of each status. -/
def transitions : TaskStatus → List TaskStatus
  | .pending => [.running, .failed]
  | .running => [.success, .failed]
  | .success => []
  | .failed => [.pending]

/-- `StatusTransition.canTransition(from, to)`. -/
def canTransition (src dst : TaskStatus) : Bool :=
  (transitions src).contains dst

/-! ## Task entity (src/src/domain/entities/Task.ts) and task service
(TaskServiceImpl in src/unnamed/part_001).

Only the fields the verified operations touch are carried.  `originalVideo`
keeps just the reference's presence; `errorMessage` is the persisted error
message field (the HAP record schema has no such column, so the service layer
never writes it — `parseRowToTask` never sets it and `updateTaskStatus`
patches only `status`). -/

structure Task where
  id : String
  title : String
  status : TaskStatus
  originalVideo : Option String
  errorMessage : Option String
  retryCount : Nat
  deriving DecidableEq, Repr

/-- `Task.canRetry`: failed and fewer than 3 retries. -/
def canRetry (t : Task) : Bool :=
  t.status == TaskStatus.failed && t.retryCount < 3

/-- `TaskServiceImpl.retryTask`: fetch the task, throw when it is missing or
`canRetry` is false, otherwise persist status `PENDING`. -/
def retryTask : Option Task → Except String Task
  | none => .error "Task not found"
  | some t =>
      if canRetry t then .ok { t with status := .pending }
      else .error "Task cannot be retried"

/-! ## Speed aligner (src/src/infrastructure/ffmpeg/FFmpegService.ts,
`adjustAudioSpeed` / `adjustSpeedSingle`).

`adjustSpeedSingle` is one invocation of the external `atempo` stretch
primitive; what matters for the claims is the list of ratios passed to it,
embedded here over ℚ. -/

/-- `FFmpegService.adjustAudioSpeed`: with
`speedRatio = originalDuration / targetDuration`, an in-range ratio is applied
once; `speedRatio > 2.0` is split into exactly the two stages `2.0` then
`speedRatio / 2`; `speedRatio < 0.5` into `0.5` then `speedRatio * 2`.  No
further chaining happens in the source. -/
def adjustAudioSpeedStages (originalDuration targetDuration : ℚ) : List ℚ :=
  let speedRatio := originalDuration / targetDuration
  if 1/2 ≤ speedRatio ∧ speedRatio ≤ 2 then [speedRatio]
  else if 2 < speedRatio then [2, speedRatio / 2]
  else [1/2, speedRatio * 2]

/-! ## Upstream service calls (src/src/infrastructure/aliyun/LLMService.ts and
TTSService.ts).

Each service method performs a single `axios.post`; the network is modelled as
the sequence of outcomes successive attempts would produce, of which the code
consults only attempt `0`.  A caught error is rethrown with the service's
wrapping message. -/

/-- A failure of one upstream attempt: transient (connection reset, timeout,
5xx) or validation / 4xx-class. -/
inductive UpstreamFailure
  | transient (msg : String)
  | validation (msg : String)
  deriving DecidableEq, Repr

def failureMessage : UpstreamFailure → String
  | .transient m => m
  | .validation m => m

/-- `LLMService.translate`: one call; on success the payload is returned, any
caught error is rethrown as `Translation failed: ...`. -/
def translate (upstream : Nat → Except UpstreamFailure String) :
    Except String String :=
  match upstream 0 with
  | .ok v => .ok v
  | .error e => .error ("Translation failed: " ++ failureMessage e)

/-- `TTSService.synthesize`: one call; any caught error is rethrown as
`TTS synthesis failed: ...`. -/
def synthesize (upstream : Nat → Except UpstreamFailure String) :
    Except String String :=
  match upstream 0 with
  | .ok v => .ok v
  | .error e => .error ("TTS synthesis failed: " ++ failureMessage e)

/-- An upstream that fails transiently on attempts 0 and 1 and would succeed
on attempt 2 — the scenario of the retry claim. -/
def retryScenario : Nat → Except UpstreamFailure String
  | 0 => .error (.transient "connection reset")
  | 1 => .error (.transient "timeout")
  | _ => .ok "translated"

/-- An upstream that fails transiently on every attempt. -/
def alwaysFailing : Nat → Except UpstreamFailure String :=
  fun _ => .error (.transient "connection reset")

/-! ## Upload validation (UploadServiceImpl in src/unnamed/part_001). -/

/-- JavaScript `haystack.includes(needle)`, as contiguous-substring search on
the character lists. -/
def listInfix (needle hay : List Char) : Bool :=
  match hay with
  | [] => needle.isEmpty
  | _ :: t => needle.isPrefixOf hay || listInfix needle t

def strIncludes (hay needle : String) : Bool :=
  listInfix needle.toList hay.toList

structure VideoFile where
  name : String
  url : String
  size : Option Nat
  mimeType : Option String
  deriving DecidableEq, Repr

structure AppConfig where
  maxFileSize : Nat
  allowedVideoTypes : List String
  deriving DecidableEq, Repr

/-- The defaults of `loadConfig` (src/unnamed/part_004): 500 MB and
`video/mp4,video/avi,video/mov`. -/
def defaultConfig : AppConfig :=
  ⟨524288000, ["video/mp4", "video/avi", "video/mov"]⟩

/-- `name.split(sep)` on character lists (JavaScript `String.split` with a
one-character separator: always at least one piece, empty pieces kept). -/
def splitOnChar (sep : Char) : List Char → List (List Char)
  | [] => [[]]
  | x :: xs =>
    match splitOnChar sep xs with
    | [] => if x = sep then [[], []] else [[x]]
    | h :: t => if x = sep then [] :: h :: t else (x :: h) :: t

/-- `file.name.split('.').pop()?.toLowerCase()`. -/
def fileExtension (name : String) : String :=
  String.mk (((splitOnChar '.' name.toList).getLastD []).map Char.toLower)

/-- JavaScript `String.trim` (structural, so it evaluates in the kernel). -/
def trimStr (s : String) : String :=
  String.mk
    (((s.toList.dropWhile Char.isWhitespace).reverse.dropWhile
        Char.isWhitespace).reverse)

/-- `UploadServiceImpl.getMimeTypeFromExtension`: table lookup with
`video/mp4` as the default for unknown extensions. -/
def getMimeTypeFromExtension (extension : String) : String :=
  if extension = "mp4" then "video/mp4"
  else if extension = "avi" then "video/avi"
  else if extension = "mov" then "video/quicktime"
  else if extension = "mkv" then "video/x-matroska"
  else if extension = "webm" then "video/webm"
  else "video/mp4"

/-- `file.mimeType || this.getMimeTypeFromExtension(extension)` — an absent or
empty mime string falls back to the extension-derived one. -/
def effectiveMime (f : VideoFile) : String :=
  match f.mimeType with
  | some m => if m = "" then getMimeTypeFromExtension (fileExtension f.name) else m
  | none => getMimeTypeFromExtension (fileExtension f.name)

/-- `UploadServiceImpl.validateVideoFile`: name required, size bounded when
present (a missing or zero `size` is falsy and skips the check), then the
allow-list test `allowed.includes(mimeType) || allowed.includes(extension)`.
`some msg` is the thrown validation error. -/
def validateVideoFile (cfg : AppConfig) (f : VideoFile) : Option String :=
  if f.name = "" then some "Video file name is required"
  else if f.size.getD 0 > cfg.maxFileSize then some "Video file size exceeds limit"
  else if cfg.allowedVideoTypes.any (fun allowed =>
      strIncludes allowed (effectiveMime f) || strIncludes allowed (fileExtension f.name))
  then none
  else some "Video type not allowed"

/-- The observable outcome of `uploadVideo`: the task store afterwards, the
returned upload result, and the thrown error if any. -/
structure UploadOutcome where
  tasks : List Task
  result : Option (String × String × String)
  thrown : Option String
  deriving DecidableEq, Repr

/-- `UploadServiceImpl.uploadVideo`: validate first; only then
`taskService.createTask(title)` (which itself throws on a blank title and
otherwise persists a new Pending task) and return the result. -/
def uploadVideo (cfg : AppConfig) (tasks : List Task) (title : String)
    (f : VideoFile) : UploadOutcome :=
  match validateVideoFile cfg f with
  | some e => ⟨tasks, none, some e⟩
  | none =>
      if trimStr title = "" then ⟨tasks, none, some "Task title is required"⟩
      else
        let id := "task-" ++ toString tasks.length
        ⟨tasks ++ [⟨id, trimStr title, .pending, none, none, 0⟩],
          some (id, f.url, title), none⟩

/-! ## Video composition temp-directory lifecycle
(src/src/infrastructure/ffmpeg/FFmpegService.ts, `combine` /
`createTempDir` / `cleanupTempDir`).

The filesystem is abstracted to the list of existing temp directories with
their files.  `combine` creates its working directory, runs its steps — each
of which may throw, with the outcomes supplied by a `CombineEnv` — and cleans
the directory in the `finally` block.  `cleanupTempDir` unlinks every file of
the directory and removes it, i.e. drops the whole entry. -/

/-- Directories with their contained file names. -/
abbrev FS := List (String × List String)

/-- Outcome of each fallible step inside `combine`: the `downloadFile` call,
the subtitle write, the render (`burnSubtitlesToVideo` or `copyVideo`), the
`mixAudio` call and the `getVideoInfo` probe, plus whether `createTempDir`
itself succeeds. -/
structure CombineEnv where
  mkdirOk : Bool
  download : Except String Unit
  writeSrt : Except String Unit
  render : Except String Unit
  mix : Except String Unit
  probe : Except String Unit

/-- Writing a file into directory `d`. -/
def addFile (fs : FS) (d fname : String) : FS :=
  fs.map (fun p => if p.1 = d then (p.1, p.2 ++ [fname]) else p)

/-- `cleanupTempDir d`: unlink all of `d`'s files and `rmdir` it. -/
def removeDir (fs : FS) (d : String) : FS :=
  fs.filter (fun p => p.1 ≠ d)

/-- The `try` body of `combine`: download the video, write and burn the
subtitles when present (else copy), mix the audio when requested, probe the
output.  Returns the filesystem as left behind and the body's outcome. -/
def combineBody (env : CombineEnv) (hasSubtitles hasAudio : Bool) (fs : FS)
    (d : String) : FS × Except String Unit :=
  match env.download with
  | .error e => (fs, .error e)
  | .ok () =>
    let fs1 := addFile fs d "input.mp4"
    match (if hasSubtitles then env.writeSrt else .ok ()) with
    | .error e => (fs1, .error e)
    | .ok () =>
      let fs2 := if hasSubtitles then addFile fs1 d "subtitles.srt" else fs1
      match env.render with
      | .error e => (fs2, .error e)
      | .ok () =>
        let fs3 := addFile fs2 d "output.mp4"
        match (if hasAudio then env.mix else .ok ()) with
        | .error e => (fs3, .error e)
        | .ok () =>
          match env.probe with
          | .error e => (fs3, .error e)
          | .ok () => (fs3, .ok ())

/-- `FFmpegService.combine`: create the per-job working directory `d`, run the
body, and in `finally` clean `d` up — also when the body threw.  When
`createTempDir` itself throws, no directory was created. -/
def combine (env : CombineEnv) (hasSubtitles hasAudio : Bool) (fs0 : FS)
    (d : String) : FS × Except String Unit :=
  if env.mkdirOk then
    let r := combineBody env hasSubtitles hasAudio (fs0 ++ [(d, [])]) d
    (removeDir r.1 d, r.2)
  else (fs0, .error "mkdtemp failed")

/-! ## Task worker orchestration (src/src/application/worker/TaskWorker.ts)
and the retry API handler (src/src/presentation/api/tasks/[id].ts).

The pipeline stages run in the source's order; the upstream-dependent ones
take their outcome from a `PipelineEnv`.  The persisted task record is the
`Task` value: `markTaskAsRunning`/`markTaskAsSuccess` update `status`, and
`TaskServiceImpl.markTaskAsFailed` logs its `errorMessage` argument and then
updates only `status` — the persisted record's error-message field is never
written. -/

inductive Stage
  | markRunning
  | checkVideo
  | asr
  | translation
  | tts
  | align
  | combineStep
  | markSuccess
  deriving DecidableEq, Repr

/-- Outcomes of the externally-backed stages of one run. -/
structure PipelineEnv where
  asr : Except String Unit
  translation : Except String Unit
  tts : Except String Unit
  align : Except String Unit
  combineStep : Except String Unit

def stageResult (env : PipelineEnv) (task : Task) : Stage → Except String Unit
  | .markRunning => .ok ()
  | .checkVideo =>
      if task.originalVideo.isSome then .ok ()
      else .error "Task has no original video"
  | .asr => env.asr
  | .translation => env.translation
  | .tts => env.tts
  | .align => env.align
  | .combineStep => env.combineStep
  | .markSuccess => .ok ()

/-- The stages of `processTask`'s `try` block, in source order. -/
def stageOrder : List Stage :=
  [.markRunning, .checkVideo, .asr, .translation, .tts, .align,
   .combineStep, .markSuccess]

/-- Run stages in order, stopping at the first failure; returns the stages
that executed and the final outcome. -/
def runSeq (env : PipelineEnv) (task : Task) :
    List Stage → List Stage × Except String Unit
  | [] => ([], .ok ())
  | s :: rest =>
    match stageResult env task s with
    | .error e => ([s], .error e)
    | .ok () =>
      let r := runSeq env task rest
      (s :: r.1, r.2)

/-- What one `processTask` call leaves behind: the persisted task record, the
stages that executed, the error messages handed to the logger, and whether the
call returned or rethrew. -/
structure ProcResult where
  store : Option Task
  executed : List Stage
  loggedErrors : List String
  outcome : Except String Unit
  deriving Repr

/-- The `try`/`catch` of `processTask` on a Pending task: run the stages,
ending Success, or on the first failure end Failed with the message logged
(not persisted) and the error rethrown. -/
def processPending (env : PipelineEnv) (task : Task) : ProcResult :=
  match runSeq env task stageOrder with
  | (exec, .ok _) => ⟨some { task with status := .success }, exec, [], .ok ()⟩
  | (exec, .error e) => ⟨some { task with status := .failed }, exec, [e], .error e⟩

/-- `TaskWorkerImpl.processTask`: missing task throws; a non-Pending task is
skipped with a warning; a Pending task runs `processPending`. -/
def processTask (env : PipelineEnv) : Option Task → ProcResult
  | none => ⟨none, [], [], .error "Task not found"⟩
  | some task =>
    if task.status = .pending then processPending env task
    else ⟨some task, [], [], .ok ()⟩

/-- The POST handler of `/api/tasks/[id]` (`retryTask` in the handler file)
calls `taskWorker.processTask(id)` directly. -/
def retryTaskEndpoint (env : PipelineEnv) (t : Option Task) : ProcResult :=
  processTask env t

/-! ## Audio timeline assembler.

Modelled from the spec: the `AudioTimelineAssembler` (spec §4.3) lives in the
repository's Python pipeline — src/docs/audio_merge_retrospective.md describes
its direct PCM byte-manipulation engine — whose code is not among the staged
files; the TypeScript worker only rescales one whole synthesized clip.  The
definitions follow the spec's algorithm: a continuous-time write cursor, a
`TimelineOrderError` for a gap below `−ε`, `floor(gapSeconds × sampleRate)`
frames of zero-fill for a positive gap, verbatim clip append, and a cursor
update to `startTime + clip duration`.  Time is ℚ; a clip is its sample-frame
count, so its post-alignment duration is `frames / rate`, and the track
duration `bufferLength / bytesPerFrame / sampleRate` is `bufFrames / rate`
(the byte count is `bufFrames × bytesPerFrame`, which divides out). -/

structure AsmState where
  cursor : ℚ
  bufFrames : ℕ
  deriving DecidableEq, Repr

/-- Modelled from the spec: the rounding tolerance ε of step 2 (1 ms). -/
def assemblerEpsilon : ℚ := 1 / 1000

/-- Modelled from the spec: one assembler step for a segment starting at
`startTime` whose aligned clip holds `clipFrames` frames (steps 2–5 of §4.3). -/
def stepSeg (rate : ℕ) (st : AsmState) (startTime : ℚ) (clipFrames : ℕ) :
    Except String AsmState :=
  let gap := startTime - st.cursor
  if gap < -assemblerEpsilon then .error "TimelineOrderError"
  else
    let silence := if 0 < gap then (gap * rate).floor.toNat else 0
    .ok ⟨startTime + (clipFrames : ℚ) / rate, st.bufFrames + silence + clipFrames⟩

/-- Modelled from the spec: fold the assembler over the segments — pairs of
`startTime` and aligned clip frame count — in ascending order. -/
def assembleFrom (rate : ℕ) : AsmState → List (ℚ × ℕ) → Except String AsmState
  | st, [] => .ok st
  | st, (s, k) :: rest =>
    match stepSeg rate st s k with
    | .error e => .error e
    | .ok st' => assembleFrom rate st' rest

/-- Modelled from the spec: assemble a whole segment list starting from the
empty master track (`writeCursorSeconds = 0`, `buffer` empty). -/
def assemble (rate : ℕ) (segs : List (ℚ × ℕ)) : Except String AsmState :=
  assembleFrom rate ⟨0, 0⟩ segs

/-- Total track duration `bufferLength / bytesPerFrame / sampleRate`. -/
def trackDuration (rate : ℕ) (st : AsmState) : ℚ :=
  (st.bufFrames : ℚ) / rate

/-- Every segment starts at or after the write cursor its predecessors leave
behind (no backward overlap at all, the regime the spec's timeline invariant
addresses). -/
def gapsChained (rate : ℕ) : ℚ → List (ℚ × ℕ) → Prop
  | _, [] => True
  | c, (s, k) :: rest => c ≤ s ∧ gapsChained rate (s + (k : ℚ) / rate) rest

end SopVideo

/-! ## Theorems -/

namespace SopVideo

/-- C3 counterexample: the transition table also allows Pending → Failed,
which the claim's list of exactly four transitions excludes. -/
theorem canTransition_pending_failed :
    canTransition TaskStatus.pending TaskStatus.failed = true := by decide

/-- C3 (amended): the transition relation allows exactly Pending→Running,
Pending→Failed, Running→Success, Running→Failed and Failed→Pending; in
particular Success has no outgoing transition. -/
theorem canTransition_characterization :
    ∀ src dst : TaskStatus,
      canTransition src dst = true ↔
        ((src = .pending ∧ dst = .running) ∨
         (src = .pending ∧ dst = .failed) ∨
         (src = .running ∧ dst = .success) ∨
         (src = .running ∧ dst = .failed) ∨
         (src = .failed ∧ dst = .pending)) := by
  intro src dst
  cases src <;> cases dst <;> decide

/-- C10: parsing round-trips with display serialization — `fromString` on each
status's display string returns that status, and returns an error (`none`) on
every string that is not one of the four display strings. -/
theorem fromString_round_trip :
    (∀ s : TaskStatus, fromString (statusString s) = some s) ∧
    (∀ v : String, fromString v = none ↔ ∀ s : TaskStatus, statusString s ≠ v) := by
  constructor
  · intro s; cases s <;> rfl
  · intro v
    constructor
    · intro h s hs
      subst hs
      cases s <;> exact absurd h (by decide)
    · intro h
      have h1 := h TaskStatus.pending
      have h2 := h TaskStatus.running
      have h3 := h TaskStatus.success
      have h4 := h TaskStatus.failed
      simp only [statusString] at h1 h2 h3 h4
      simp [fromString, Ne.symm h1, Ne.symm h2, Ne.symm h3, Ne.symm h4]

/-- C6: a Failed task's retry succeeds (moving it to Pending) iff its
`retryCount` is strictly below 3. -/
theorem retryTask_iff (t : Task) (hf : t.status = TaskStatus.failed) :
    (∃ t', retryTask (some t) = .ok t' ∧ t'.status = TaskStatus.pending) ↔
      t.retryCount < 3 := by
  constructor
  · rintro ⟨t', hok, -⟩
    by_cases h : canRetry t
    · simp only [canRetry, Bool.and_eq_true, beq_iff_eq, decide_eq_true_eq] at h
      exact h.2
    · rw [Bool.not_eq_true] at h
      simp [retryTask, h] at hok
  · intro hlt
    refine ⟨{ t with status := .pending }, ?_, rfl⟩
    have hcr : canRetry t = true := by
      simp [canRetry, hf, hlt]
      decide
    simp [retryTask, hcr]

/-- C6 witness: a Failed task with `retryCount = 2` is retried to Pending, and
one with `retryCount = 3` is rejected. -/
theorem retryTask_iff_witness :
    (∃ t', retryTask (some ⟨"t1", "demo", .failed, none, none, 2⟩) = .ok t' ∧
        t'.status = TaskStatus.pending) ∧
      retryTask (some ⟨"t1", "demo", .failed, none, none, 3⟩) =
        .error "Task cannot be retried" := by
  refine ⟨(retryTask_iff ⟨"t1", "demo", .failed, none, none, 2⟩ rfl).mpr (by decide), ?_⟩
  rfl

/-- C1: at `speedRatio = 5` (clip of 10 s aligned to 2 s) the source applies
exactly the two stages `2.0` and `2.5`, and the second stage's ratio `2.5`
falls outside the stretch primitive's supported range `[0.5, 2.0]` — the
two-step split never chains further, contradicting the claim (and the code's
own comment that `atempo` only supports `0.5`–`2.0`). -/
theorem adjustAudioSpeedStages_out_of_range :
    adjustAudioSpeedStages 10 2 = [2, 5/2] ∧
      5/2 ∈ adjustAudioSpeedStages 10 2 ∧ ¬((1:ℚ)/2 ≤ 5/2 ∧ (5:ℚ)/2 ≤ 2) := by
  refine ⟨?_, ?_, ?_⟩
  · norm_num [adjustAudioSpeedStages]
  · norm_num [adjustAudioSpeedStages]
  · norm_num

/-- C5 counterexample: against an upstream that fails transiently on attempts
0 and 1 and would succeed on attempt 2, both `translate` and `synthesize`
raise on the very first failure instead of returning the attempt-2 success —
there is no retry loop in either service. -/
theorem translate_no_retry_cex :
    retryScenario 0 = .error (.transient "connection reset") ∧
    retryScenario 1 = .error (.transient "timeout") ∧
    retryScenario 2 = .ok "translated" ∧
    translate retryScenario = .error "Translation failed: connection reset" ∧
    synthesize retryScenario = .error "TTS synthesis failed: connection reset" :=
  ⟨rfl, rfl, rfl, rfl, rfl⟩

/-- C5 (amended): each upstream call performs exactly one attempt — the
result depends only on attempt 0; a first-attempt success is returned, and
any first-attempt failure, transient or validation alike, raises immediately
with the service's wrapped message. -/
theorem translate_single_attempt (u u' : Nat → Except UpstreamFailure String)
    (h : u 0 = u' 0) :
    (translate u = translate u' ∧ synthesize u = synthesize u') ∧
    (∀ v, u 0 = .ok v → translate u = .ok v ∧ synthesize u = .ok v) ∧
    (∀ e, u 0 = .error e →
      translate u = .error ("Translation failed: " ++ failureMessage e) ∧
      synthesize u = .error ("TTS synthesis failed: " ++ failureMessage e)) := by
  refine ⟨⟨?_, ?_⟩, ?_, ?_⟩
  · simp [translate, h]
  · simp [synthesize, h]
  · intro v hv
    exact ⟨by simp [translate, hv], by simp [synthesize, hv]⟩
  · intro e he
    exact ⟨by simp [translate, he], by simp [synthesize, he]⟩

/-- C5 witness: the scenario upstream and the always-failing upstream agree on
attempt 0, so the calls cannot tell them apart — later attempts are never
consulted. -/
theorem translate_single_attempt_witness :
    ((translate retryScenario = translate alwaysFailing ∧
      synthesize retryScenario = synthesize alwaysFailing) ∧
     (∀ v, retryScenario 0 = .ok v →
        translate retryScenario = .ok v ∧ synthesize retryScenario = .ok v) ∧
     (∀ e, retryScenario 0 = .error e →
        translate retryScenario = .error ("Translation failed: " ++ failureMessage e) ∧
        synthesize retryScenario = .error ("TTS synthesis failed: " ++ failureMessage e))) :=
  translate_single_attempt retryScenario alwaysFailing rfl

/-- C7 counterexample: `a.exe` (size 1 byte, no declared mime type) passes
validation under the default configuration and a task is created for it, even
though no allow-list entry contains `exe`: the unknown extension falls back to
mime `video/mp4`, which the allow-list matches. -/
theorem uploadVideo_exe_accepted :
    validateVideoFile defaultConfig ⟨"a.exe", "http://x/a.exe", some 1, none⟩ = none ∧
    (uploadVideo defaultConfig [] "demo"
        ⟨"a.exe", "http://x/a.exe", some 1, none⟩).tasks.length = 1 ∧
    (∀ a ∈ defaultConfig.allowedVideoTypes, strIncludes a "exe" = false) := by
  refine ⟨by decide, by decide, by decide⟩

/-- C7 (amended): a validation failure is surfaced with the task store
untouched — rejection happens before any task is created; a file whose given
size exceeds the configured maximum is always rejected; and for a named,
size-acceptable file, validation passes exactly when some allow-list entry
contains (as a substring) the effective mime type — which defaults to
`video/mp4` for unknown extensions when no mime type is given — or the
lowercased extension. -/
theorem uploadVideo_rejects_before_create (cfg : AppConfig) (tasks : List Task)
    (title : String) (f : VideoFile) :
    (∀ e, validateVideoFile cfg f = some e →
        uploadVideo cfg tasks title f = ⟨tasks, none, some e⟩) ∧
    (f.size.getD 0 > cfg.maxFileSize → ∃ e, validateVideoFile cfg f = some e) ∧
    (f.name ≠ "" → f.size.getD 0 ≤ cfg.maxFileSize →
      (validateVideoFile cfg f = none ↔
        cfg.allowedVideoTypes.any (fun allowed =>
          strIncludes allowed (effectiveMime f) ||
          strIncludes allowed (fileExtension f.name)) = true)) := by
  refine ⟨?_, ?_, ?_⟩
  · intro e he
    simp [uploadVideo, he]
  · intro hsize
    unfold validateVideoFile
    by_cases hn : f.name = ""
    · exact ⟨"Video file name is required", by simp [hn]⟩
    · exact ⟨"Video file size exceeds limit", by simp [hn, hsize]⟩
  · intro hn hsize
    unfold validateVideoFile
    rw [if_neg hn, if_neg (by omega)]
    by_cases hall : cfg.allowedVideoTypes.any (fun allowed =>
        strIncludes allowed (effectiveMime f) ||
        strIncludes allowed (fileExtension f.name)) = true
    · simp [hall]
    · simp [hall]

/-- Removing a directory erases whatever was written into it. -/
theorem removeDir_addFile (fs : FS) (d f : String) :
    removeDir (addFile fs d f) d = removeDir fs d := by
  induction fs with
  | nil => rfl
  | cons p t ih =>
    by_cases hp : p.1 = d
    · simp [addFile, removeDir, hp] at ih ⊢
      exact ih
    · simp [addFile, removeDir, hp] at ih ⊢
      exact ih

/-- The body of `combine` only ever writes into its own directory: removing
that directory afterwards gives the same filesystem as removing it from the
body's input. -/
theorem removeDir_combineBody (env : CombineEnv) (hs ha : Bool) (fs : FS)
    (d : String) :
    removeDir (combineBody env hs ha fs d).1 d = removeDir fs d := by
  unfold combineBody
  rcases env.download with e | _
  · rfl
  · cases hs <;> cases ha <;>
      rcases env.writeSrt with e | _ <;>
      rcases env.render with e | _ <;>
      rcases env.mix with e | _ <;>
      rcases env.probe with e | _ <;>
      simp [removeDir_addFile]

/-- A directory that is not present is unaffected by `removeDir`. -/
theorem removeDir_of_not_mem (fs : FS) (d : String)
    (h : d ∉ fs.map Prod.fst) : removeDir fs d = fs := by
  induction fs with
  | nil => rfl
  | cons p t ih =>
    rw [List.map_cons, List.mem_cons] at h
    push_neg at h
    have hp : p.1 ≠ d := fun hd => h.1 hd.symm
    have ht := ih h.2
    have hcond : decide (p.1 ≠ d) = true := by simp [hp]
    simp only [removeDir, List.filter_cons, hcond, if_true]
    simp only [removeDir] at ht
    rw [ht]

/-- C8: on every exit path of `combine` — success, render failure, or any
earlier exception, including a failing `createTempDir` — the per-job working
directory and all its contents are gone: the filesystem ends exactly as it
started. -/
theorem combine_cleans_workdir (env : CombineEnv) (hasSubtitles hasAudio : Bool)
    (fs0 : FS) (d : String) (hfresh : d ∉ fs0.map Prod.fst) :
    (combine env hasSubtitles hasAudio fs0 d).1 = fs0 ∧
    d ∉ ((combine env hasSubtitles hasAudio fs0 d).1.map Prod.fst) := by
  have hmain : (combine env hasSubtitles hasAudio fs0 d).1 = fs0 := by
    unfold combine
    by_cases hk : env.mkdirOk
    · simp only [hk, if_true]
      rw [removeDir_combineBody]
      have : removeDir (fs0 ++ [(d, [])]) d = removeDir fs0 d := by
        simp [removeDir, List.filter_append]
      rw [this, removeDir_of_not_mem fs0 d hfresh]
    · simp [hk]
  exact ⟨hmain, by rw [hmain]; exact hfresh⟩

/-- C8 witness: a run whose render step fails, against a filesystem holding an
unrelated directory, ends with exactly that filesystem — the working
directory `/tmp/ffmpeg-job` is gone. -/
theorem combine_cleans_workdir_witness :
    (combine ⟨true, .ok (), .ok (), .error "render failed", .ok (), .ok ()⟩
        true true [("other", ["keep.txt"])] "/tmp/ffmpeg-job").1 =
      [("other", ["keep.txt"])] ∧
    "/tmp/ffmpeg-job" ∉
      ((combine ⟨true, .ok (), .ok (), .error "render failed", .ok (), .ok ()⟩
          true true [("other", ["keep.txt"])] "/tmp/ffmpeg-job").1.map Prod.fst) :=
  combine_cleans_workdir _ true true _ _ (by decide)

/-- When `runSeq` ends in an error, the executed stages are the successful
front followed by the one failing stage, and they form an initial part of the
stage list — nothing after the failing stage ran. -/
theorem runSeq_error_spec (env : PipelineEnv) (task : Task) :
    ∀ (l exec : List Stage) (e : String), runSeq env task l = (exec, .error e) →
      ∃ front fail rest, exec = front ++ [fail] ∧ l = exec ++ rest ∧
        (∀ s ∈ front, stageResult env task s = .ok ()) ∧
        stageResult env task fail = .error e := by
  intro l
  induction l with
  | nil => intro exec e h; exact absurd h (by simp [runSeq])
  | cons s rest ih =>
    intro exec e h
    rcases hs : stageResult env task s with err | u
    · simp only [runSeq, hs] at h
      rw [Prod.mk.injEq] at h
      obtain ⟨h1, h2⟩ := h
      injection h2 with h2
      subst h2
      subst h1
      exact ⟨[], s, rest, rfl, rfl, by simp, hs⟩
    · cases u
      rcases hre : runSeq env task rest with ⟨execRest, r2⟩
      simp only [runSeq, hs, hre] at h
      rw [Prod.mk.injEq] at h
      obtain ⟨h1, h2⟩ := h
      subst h2
      obtain ⟨front, fail, tail, hexec, htail, hfront, hfail⟩ := ih execRest e hre
      subst h1
      refine ⟨s :: front, fail, tail, by simp [hexec], by simp [htail], ?_, hfail⟩
      intro x hx
      rcases List.mem_cons.mp hx with hx | hx
      · subst hx; exact hs
      · exact hfront x hx

/-- C4 counterexample environment: the ASR stage fails, every later stage
would succeed. -/
def envAsrFail : PipelineEnv :=
  ⟨.error "ASR transcription failed: boom", .ok (), .ok (), .ok (), .ok ()⟩

/-- A pending task with an original video and no stored error message. -/
def pendingTask : Task := ⟨"t1", "demo", .pending, some "video.mp4", none, 0⟩

/-- C4 counterexample: when the ASR stage fails, the task record ends Failed
and the run stops, but the failing error's message lands only in the log —
the persisted task record's error-message field is still `none`, not the
message, contradicting "message stored on the task". -/
theorem processTask_error_not_persisted :
    processTask envAsrFail (some pendingTask) =
      ⟨some { pendingTask with status := .failed },
        [.markRunning, .checkVideo, .asr],
        ["ASR transcription failed: boom"],
        .error "ASR transcription failed: boom"⟩ ∧
    ((processTask envAsrFail (some pendingTask)).store.map Task.errorMessage) =
      some none :=
  ⟨rfl, rfl⟩

/-- C4 (amended): a failure in any pipeline stage makes the task transition to
Failed with the error message logged but not persisted on the task record
(the record's error-message field keeps its prior value), and no stage after
the failing one executes: the executed stages are a successful front followed
by the failing stage, an initial part of the stage order. -/
theorem processTask_failure_spec (env : PipelineEnv) (task : Task) (e : String)
    (hp : task.status = .pending)
    (hf : (processTask env (some task)).outcome = .error e) :
    (∃ t', (processTask env (some task)).store = some t' ∧
        t'.status = .failed ∧ t'.errorMessage = task.errorMessage) ∧
    (processTask env (some task)).loggedErrors = [e] ∧
    ∃ front fail rest,
      (processTask env (some task)).executed = front ++ [fail] ∧
      stageOrder = (processTask env (some task)).executed ++ rest ∧
      (∀ s ∈ front, stageResult env task s = .ok ()) ∧
      stageResult env task fail = .error e := by
  rcases hr : runSeq env task stageOrder with ⟨exec, r⟩
  rcases r with e' | u
  · have hpt : processTask env (some task) =
        ⟨some { task with status := .failed }, exec, [e'], .error e'⟩ := by
      have h1 : processTask env (some task) =
          if task.status = TaskStatus.pending then processPending env task
          else ⟨some task, [], [], .ok ()⟩ := rfl
      rw [h1, if_pos hp]
      unfold processPending
      rw [hr]
    rw [hpt] at hf
    have he : e' = e := by
      injection hf with hf'
    subst he
    obtain ⟨front, fail, rest, hexec, hord, hfront, hfail⟩ :=
      runSeq_error_spec env task stageOrder exec e' hr
    rw [hpt]
    exact ⟨⟨{ task with status := .failed }, rfl, rfl, rfl⟩, rfl,
      front, fail, rest, hexec, hord, hfront, hfail⟩
  · cases u
    have hpt : processTask env (some task) =
        ⟨some { task with status := .success }, exec, [], .ok ()⟩ := by
      have h1 : processTask env (some task) =
          if task.status = TaskStatus.pending then processPending env task
          else ⟨some task, [], [], .ok ()⟩ := rfl
      rw [h1, if_pos hp]
      unfold processPending
      rw [hr]
    rw [hpt] at hf
    exact absurd hf (by simp)

/-- C4 witness: the concrete failing-ASR run, with the theorem's hypotheses
discharged at `pendingTask`. -/
theorem processTask_failure_spec_witness :
    (∃ t', (processTask envAsrFail (some pendingTask)).store = some t' ∧
        t'.status = .failed ∧ t'.errorMessage = pendingTask.errorMessage) ∧
    (processTask envAsrFail (some pendingTask)).loggedErrors =
      ["ASR transcription failed: boom"] ∧
    ∃ front fail rest,
      (processTask envAsrFail (some pendingTask)).executed = front ++ [fail] ∧
      stageOrder = (processTask envAsrFail (some pendingTask)).executed ++ rest ∧
      (∀ s ∈ front, stageResult envAsrFail pendingTask s = .ok ()) ∧
      stageResult envAsrFail pendingTask fail =
        .error "ASR transcription failed: boom" :=
  processTask_failure_spec envAsrFail pendingTask
    "ASR transcription failed: boom" rfl rfl

/-- C9: on a task that is not Pending, `processTask` returns before running
any stage: the stored task is unchanged (status, error message and artifacts
included), nothing executed, nothing logged, no error — and the retry API
endpoint, which calls `processTask` directly, therefore performs no work
either. -/
theorem processTask_skips_non_pending (env : PipelineEnv) (task : Task)
    (h : task.status ≠ TaskStatus.pending) :
    processTask env (some task) = ⟨some task, [], [], .ok ()⟩ ∧
    retryTaskEndpoint env (some task) = ⟨some task, [], [], .ok ()⟩ := by
  have hpt : processTask env (some task) = ⟨some task, [], [], .ok ()⟩ := by
    have h1 : processTask env (some task) =
        if task.status = TaskStatus.pending then processPending env task
        else ⟨some task, [], [], .ok ()⟩ := rfl
    rw [h1, if_neg h]
  exact ⟨hpt, hpt⟩

/-- C9 witness: a Success task is skipped untouched. -/
theorem processTask_skips_non_pending_witness :
    processTask envAsrFail (some ⟨"t2", "done", .success, some "v", none, 1⟩) =
      ⟨some ⟨"t2", "done", .success, some "v", none, 1⟩, [], [], .ok ()⟩ ∧
    retryTaskEndpoint envAsrFail (some ⟨"t2", "done", .success, some "v", none, 1⟩) =
      ⟨some ⟨"t2", "done", .success, some "v", none, 1⟩, [], [], .ok ()⟩ :=
  processTask_skips_non_pending envAsrFail _ (by decide)

/-- `Rat.floor` is the floor of the `FloorRing` instance. -/
theorem rat_floor_eq_intFloor (q : ℚ) : q.floor = ⌊q⌋ := by
  rw [Rat.floor_def', Rat.floor_def]

/-- For a nonnegative rational, `q.floor.toNat` is within one of `q`. -/
theorem floor_toNat_bounds (q : ℚ) (hq : 0 ≤ q) :
    (q.floor.toNat : ℚ) ≤ q ∧ q < (q.floor.toNat : ℚ) + 1 := by
  have h0 : (0 : ℤ) ≤ q.floor := by
    rw [rat_floor_eq_intFloor]
    exact Int.floor_nonneg.mpr hq
  have hcast : ((q.floor.toNat : ℚ)) = ((q.floor : ℤ) : ℚ) := by
    exact_mod_cast congrArg (fun z => ((z : ℤ) : ℚ)) (Int.toNat_of_nonneg h0)
  constructor
  · rw [hcast, rat_floor_eq_intFloor]
    exact Int.floor_le q
  · rw [hcast, rat_floor_eq_intFloor]
    exact Int.lt_floor_add_one q

/-- C2 counterexample: four sorted segments at 10 frames/s, each clip exactly
one frame (0.1 s) long — startTimes 0, 0.25, 0.6, 0.95, so every segment's
`endTime > startTime` and no overlap.  Assembly succeeds with final cursor
21/20 = 0.95 + 0.1 but only 9 buffered frames: the track lasts 0.9 s, falling
3/20 s short of the last segment's `startTime + alignedDuration`, more than
the one sample frame (1/10 s) the claim allows — each positive gap's
sub-frame remainder is lost to flooring and the losses accumulate. -/
theorem assembleFrom_cons_ok (rate : ℕ) (st st' : AsmState) (s : ℚ) (k : ℕ)
    (rest : List (ℚ × ℕ)) (h : stepSeg rate st s k = .ok st') :
    assembleFrom rate st ((s, k) :: rest) = assembleFrom rate st' rest := by
  have hshape : assembleFrom rate st ((s, k) :: rest) =
      match stepSeg rate st s k with
      | .error e => .error e
      | .ok st'' => assembleFrom rate st'' rest := rfl
  rw [hshape, h]

theorem assemble_duration_cex :
    assemble 10 [(0, 1), (1/4, 1), (3/5, 1), (19/20, 1)] = .ok ⟨21/20, 9⟩ ∧
    trackDuration 10 ⟨21/20, 9⟩ = 9/10 ∧
    ¬(|trackDuration 10 ⟨21/20, 9⟩ - (19/20 + (1 : ℚ)/10)| ≤ 1/10) := by
  have s1 : stepSeg 10 ⟨0, 0⟩ 0 1 = .ok ⟨1/10, 1⟩ := by
    norm_num [stepSeg, assemblerEpsilon, rat_floor_eq_intFloor]
  have s2 : stepSeg 10 ⟨1/10, 1⟩ (1/4) 1 = .ok ⟨7/20, 3⟩ := by
    norm_num [stepSeg, assemblerEpsilon, rat_floor_eq_intFloor]
  have s3 : stepSeg 10 ⟨7/20, 3⟩ (3/5) 1 = .ok ⟨7/10, 6⟩ := by
    norm_num [stepSeg, assemblerEpsilon, rat_floor_eq_intFloor]
    decide
  have s4 : stepSeg 10 ⟨7/10, 6⟩ (19/20) 1 = .ok ⟨21/20, 9⟩ := by
    norm_num [stepSeg, assemblerEpsilon, rat_floor_eq_intFloor]
    decide
  refine ⟨?_, by norm_num [trackDuration], ?_⟩
  · rw [assemble,
      assembleFrom_cons_ok 10 _ ⟨1/10, 1⟩ _ _ _ s1,
      assembleFrom_cons_ok 10 _ ⟨7/20, 3⟩ _ _ _ s2,
      assembleFrom_cons_ok 10 _ ⟨7/10, 6⟩ _ _ _ s3,
      assembleFrom_cons_ok 10 _ ⟨21/20, 9⟩ _ _ _ s4]
    rfl
  · have h1 : trackDuration 10 ⟨21/20, 9⟩ - (19/20 + (1 : ℚ)/10) = -(3/20) := by
      norm_num [trackDuration]
    rw [h1, abs_neg, abs_of_nonneg (by norm_num)]
    norm_num

/-- The assembler invariant, in frame units: assembly under chained
nonnegative gaps always succeeds, the buffer never overshoots the cursor, the
cursor leads the buffer by less than one frame per processed segment, and the
final cursor is the last segment's `startTime` plus its clip duration. -/
theorem assembleFrom_spec (rate : ℕ) (hrate : 0 < rate) :
    ∀ (segs : List (ℚ × ℕ)) (st0 : AsmState),
      gapsChained rate st0.cursor segs →
      (st0.bufFrames : ℚ) ≤ st0.cursor * rate →
      ∃ st, assembleFrom rate st0 segs = .ok st ∧
        (st.bufFrames : ℚ) ≤ st.cursor * rate ∧
        st.cursor * rate - st.bufFrames ≤
          (st0.cursor * rate - st0.bufFrames) + segs.length ∧
        (segs = [] → st = st0) ∧
        (∀ lastSeg, segs.getLast? = some lastSeg →
          st.cursor = lastSeg.1 + (lastSeg.2 : ℚ) / rate) := by
  intro segs
  induction segs with
  | nil =>
    intro st0 _ hb
    refine ⟨st0, rfl, hb, by simp, fun _ => rfl, ?_⟩
    intro lastSeg hl
    exact absurd hl (by simp)
  | cons hd rest ih =>
    rcases hd with ⟨s, k⟩
    intro st0 hg hb
    obtain ⟨hcs, hgrest⟩ := hg
    have hrq : (0 : ℚ) < (rate : ℚ) := by exact_mod_cast hrate
    have heps : (0 : ℚ) < assemblerEpsilon := by norm_num [assemblerEpsilon]
    have hgap0 : (0 : ℚ) ≤ s - st0.cursor := by linarith
    have hgap : ¬(s - st0.cursor < -assemblerEpsilon) := by
      intro hcon
      linarith
    have hstep : stepSeg rate st0 s k =
        .ok ⟨s + (k : ℚ) / rate,
          st0.bufFrames +
            (if 0 < s - st0.cursor
              then ((s - st0.cursor) * rate).floor.toNat else 0) + k⟩ := by
      unfold stepSeg
      rw [if_neg hgap]
    set silence : ℕ :=
      if 0 < s - st0.cursor then ((s - st0.cursor) * rate).floor.toNat else 0
      with hsil
    have hs_le : (silence : ℚ) ≤ (s - st0.cursor) * rate := by
      rw [hsil]
      by_cases hpos : 0 < s - st0.cursor
      · rw [if_pos hpos]
        exact (floor_toNat_bounds _ (mul_nonneg (le_of_lt hpos) (le_of_lt hrq))).1
      · rw [if_neg hpos]
        have h0 : s - st0.cursor = 0 := le_antisymm (not_lt.mp hpos) hgap0
        rw [h0]
        simp
    have hs_lt : (s - st0.cursor) * rate < (silence : ℚ) + 1 := by
      rw [hsil]
      by_cases hpos : 0 < s - st0.cursor
      · rw [if_pos hpos]
        exact (floor_toNat_bounds _ (mul_nonneg (le_of_lt hpos) (le_of_lt hrq))).2
      · rw [if_neg hpos]
        have h0 : s - st0.cursor = 0 := le_antisymm (not_lt.mp hpos) hgap0
        rw [h0]
        norm_num
    have hexp : (s + (k : ℚ) / rate) * rate = s * rate + k := by
      field_simp
    have hb1 : ((st0.bufFrames + silence + k : ℕ) : ℚ) ≤
        (s + (k : ℚ) / rate) * rate := by
      rw [hexp]
      push_cast
      have hmul : (s - st0.cursor) * rate = s * rate - st0.cursor * rate := by
        ring
      rw [hmul] at hs_le
      linarith
    obtain ⟨st, hrun, hA, hB, hempty, hlast⟩ :=
      ih ⟨s + (k : ℚ) / rate, st0.bufFrames + silence + k⟩ hgrest hb1
    have hshape : assembleFrom rate st0 ((s, k) :: rest) =
        match stepSeg rate st0 s k with
        | .error e => .error e
        | .ok st' => assembleFrom rate st' rest := rfl
    refine ⟨st, ?_, hA, ?_, ?_, ?_⟩
    · rw [hshape, hstep]
      exact hrun
    · have hB' : st.cursor * rate - st.bufFrames ≤
          ((s + (k : ℚ) / rate) * rate - (st0.bufFrames + silence + k : ℕ)) +
            rest.length := hB
      rw [hexp] at hB'
      push_cast [List.length_cons] at hB' ⊢
      have hmul : (s - st0.cursor) * rate = s * rate - st0.cursor * rate := by
        ring
      rw [hmul] at hs_lt
      linarith
    · intro hcon
      exact absurd hcon (by simp)
    · intro lastSeg hl
      cases rest with
      | nil =>
        have hls : lastSeg = (s, k) := by
          simpa using hl.symm
        subst hls
        rw [hempty rfl]
      | cons r0 rs =>
        rw [List.getLast?_cons_cons] at hl
        exact hlast lastSeg hl

/-- C2 (amended): for every sample rate and segment list in which each segment
starts no earlier than the write cursor its predecessors leave, assembly
succeeds, and the track's total duration never exceeds — and falls short by at
most one sample frame per segment of — the last segment's `startTime` plus its
post-alignment clip duration.  (The claim's bound of a single sample frame
fails once several gaps each lose a sub-frame remainder to flooring, as the
counterexample shows.) -/
theorem assemble_duration_bound (rate : ℕ) (hrate : 0 < rate)
    (segs : List (ℚ × ℕ)) (hgaps : gapsChained rate 0 segs) :
    ∃ st, assemble rate segs = .ok st ∧
      trackDuration rate st ≤ st.cursor ∧
      st.cursor - (segs.length : ℚ) / rate ≤ trackDuration rate st ∧
      ∀ lastSeg, segs.getLast? = some lastSeg →
        st.cursor = lastSeg.1 + (lastSeg.2 : ℚ) / rate := by
  obtain ⟨st, hrun, hA, hB, -, hlast⟩ :=
    assembleFrom_spec rate hrate segs ⟨0, 0⟩ hgaps (by simp)
  have hrq : (0 : ℚ) < (rate : ℚ) := by exact_mod_cast hrate
  refine ⟨st, hrun, ?_, ?_, hlast⟩
  · rw [trackDuration, div_le_iff₀ hrq]
    exact hA
  · rw [trackDuration, sub_le_iff_le_add, div_add_div_same, le_div_iff₀ hrq]
    simp only [AsmState.cursor, AsmState.bufFrames] at hB
    norm_num at hB
    linarith

/-- C2 witness: two segments at 10 frames/s with one-frame clips starting at
0 and 1/4; the assembled track lasts 0.3 s against a final cursor of 0.35 s —
within the two-frame (two segments) bound, with the cursor equal to the last
segment's start plus its clip duration. -/
theorem assemble_duration_bound_witness :
    ∃ st, assemble 10 [(0, 1), (1/4, 1)] = .ok st ∧
      trackDuration 10 st ≤ st.cursor ∧
      st.cursor - (([((0 : ℚ), (1 : ℕ)), (1/4, 1)].length : ℚ)) / ((10 : ℕ) : ℚ) ≤
        trackDuration 10 st ∧
      ∀ lastSeg, [((0 : ℚ), (1 : ℕ)), (1/4, 1)].getLast? = some lastSeg →
        st.cursor = lastSeg.1 + (lastSeg.2 : ℚ) / ((10 : ℕ) : ℚ) :=
  assemble_duration_bound 10 (by norm_num) [(0, 1), (1/4, 1)]
    (by refine ⟨?_, ?_, trivial⟩ <;> norm_num)

end SopVideo
